import Mathlib

/-!
# Verification of the K&R-style memory allocator (`mm_kr_heap2.c`, `mm_kr_heap4.c`)

Shallow embedding of the two allocator variants of this repository.

Modelling conventions (shared by both variants):

* Memory is a map from *unit addresses* (`Nat`) to `Cell`s.  One cell models one
  `Header`-sized chunk (`sizeof(Header)` = 16 bytes on the usual LP64 target:
  a pointer plus a `size_t`, padded to `max_align_t`).  A cell carries the
  `Header.s.ptr` field (`NULL` modelled as `0`; every real object lives at an
  address `≥ 2`), the `Header.s.size` field, and the 16 raw payload bytes of
  that chunk (`bytes`), so that `memcpy` in `mm_realloc` can be modelled at
  byte granularity.
* The static sentinels `baseH`/`baseF` live at unit addresses 2 and 3 (the C
  globals sit below the sbrk heap); the sbrk arena starts at unit address 10
  and grows upward, `mem_sbrk` appending `heapUnits` more units, bounded by
  `memLimit` (memlib's `MAX_HEAP`); an exceeded bound makes `mem_sbrk` fail,
  exactly as `mem_sbrk` returning `(void *) -1`.
* `mem_pagesize()` is 4096 bytes, hence `mem_pagesize()/sizeof(Header)` = 256.
* Unwritten memory reads as a zeroed cell (`ptr = 0`, `size = 0`); C would read
  indeterminate bytes there, the zeroed cell is the benign concretisation.
* Loops are modelled with explicit fuel; exhausted fuel is reported as a
  distinguished `fuelOut` result and never conflated with out-of-memory.
* Every mutation step mirrors one C statement, re-evaluating each address
  expression against the state current at that statement.
-/

/-- Value of `sizeof(Header)` in bytes. -/
def hdrSize : Nat := 16

/-- Value of `mem_pagesize()` in bytes. -/
def pageBytes : Nat := 4096

/-- Unit address of the static sentinel header `baseH`. -/
def baseHaddr : Nat := 2

/-- Unit address of the static sentinel footer `baseF` (declared right after
`baseH` in both files). -/
def baseFaddr : Nat := 3

/-- Unit address where the sbrk arena begins (first `mem_sbrk` grant). -/
def heapLo : Nat := 10

/-- One `Header`-sized chunk of memory: the two fields of `Header.s` plus the
raw payload bytes of the chunk (`bytes i` for `i < 16`). -/
structure Cell where
  ptr : Nat
  size : Nat
  bytes : Nat → Nat

/-- Unwritten memory: zeroed chunk. -/
def Cell.zero : Cell := ⟨0, 0, fun _ => 0⟩

/-- Whole-program state of one allocator instance. -/
structure HeapState where
  mem : Nat → Cell
  /-- the global `freep` (`0` = `NULL`) -/
  freep : Nat
  /-- current sbrk arena extent in units (`mem_heapsize()/sizeof(Header)`) -/
  heapUnits : Nat
  /-- memlib's `MAX_HEAP` in units: `mem_sbrk` beyond this fails -/
  memLimit : Nat
  /-- the `errno == ENOMEM` flag -/
  errnoENOMEM : Bool
  /-- byte counts of the `mem_sbrk` requests issued so far, oldest first -/
  sbrkLog : List Nat

/-- Read one cell. -/
def HeapState.rd (st : HeapState) (a : Nat) : Cell := st.mem a

/-- Write the `ptr` field of the cell at `a`. -/
def HeapState.wrPtr (st : HeapState) (a v : Nat) : HeapState :=
  { st with mem := fun x => if x = a then { st.mem a with ptr := v } else st.mem x }

/-- Write the `size` field of the cell at `a`. -/
def HeapState.wrSize (st : HeapState) (a v : Nat) : HeapState :=
  { st with mem := fun x => if x = a then { st.mem a with size := v } else st.mem x }

/-- Write one payload byte at byte address `b`. -/
def HeapState.wrByte (st : HeapState) (b v : Nat) : HeapState :=
  { st with mem := fun x => if x = b / hdrSize then
      { st.mem x with bytes := fun i => if i = b % hdrSize then v else (st.mem x).bytes i }
    else st.mem x }

/-- Read one payload byte at byte address `b`. -/
def HeapState.byteAt (st : HeapState) (b : Nat) : Nat :=
  (st.mem (b / hdrSize)).bytes (b % hdrSize)

/-- Model of `mem_sbrk(nbytes)`: on success returns the old break (a unit address) and
extends the arena; fails (returns `none`, C's `(void *) -1`) when the grant
would exceed `MAX_HEAP`.  Every request is logged. -/
def HeapState.mem_sbrk (st : HeapState) (nbytes : Nat) : Option Nat × HeapState :=
  let st1 := { st with sbrkLog := st.sbrkLog ++ [nbytes] }
  let nu := nbytes / hdrSize
  if st1.heapUnits + nu ≤ st1.memLimit then
    (some (heapLo + st1.heapUnits), { st1 with heapUnits := st1.heapUnits + nu })
  else
    (none, st1)

/-- A completely fresh process state: nothing written, `freep == NULL`. -/
def freshState (limit : Nat) : HeapState :=
  { mem := fun _ => Cell.zero, freep := 0, heapUnits := 0, memLimit := limit,
    errnoENOMEM := false, sbrkLog := [] }

/-- Byte-wise libc `memcpy(dst, src, n)` over payload bytes (`dst`, `src` are
byte addresses), copying forward one byte at a time; shared by both variants'
`mm_realloc`. -/
def memcpyBytes (st : HeapState) (dst src : Nat) : Nat → HeapState
  | 0 => st
  | n + 1 => memcpyBytes (st.wrByte dst (st.byteAt src)) (dst + 1) (src + 1) n

/-- Result of `mm_malloc`/`mm_realloc`: payload pointer + state, out of memory
(`NULL` with `errno = ENOMEM`), or model fuel exhausted. -/
inductive MRes where
  | ok (p : Nat) (st : HeapState)
  | oom (st : HeapState)
  | fuelOut (st : HeapState)

/-- The returned payload pointer (`0` when `NULL`/no result). -/
def MRes.ptr : MRes → Nat
  | .ok p _ => p
  | .oom _ => 0
  | .fuelOut _ => 0

/-- The state carried by a result. -/
def MRes.st : MRes → HeapState
  | .ok _ st => st
  | .oom st => st
  | .fuelOut st => st

/-- Did the call succeed? -/
def MRes.isOk : MRes → Bool
  | .ok _ _ => true
  | _ => false

/-- Did the call report out-of-memory? -/
def MRes.isOom : MRes → Bool
  | .oom _ => true
  | _ => false

namespace heap2

/-! ## `mm_kr_heap2.c` -/

/-- Source `mm_units(nbytes)` (line 125): `(nbytes + sizeof(Header) - 1) / sizeof(Header) + 2`. -/
def mm_units (nbytes : Nat) : Nat := (nbytes + hdrSize - 1) / hdrSize + 2

/-- Source `mm_bytes(nunits)` (line 137): `nunits * sizeof(Header)`. -/
def mm_bytes (nunits : Nat) : Nat := nunits * hdrSize

/-- Source `mm_payload(bp)` (line 147): `bp + 1`. -/
def mm_payload (bp : Nat) : Nat := bp + 1

/-- Source `mm_block(ap)` (line 156): `(Header*)ap - 1`. -/
def mm_block (ap : Nat) : Nat := ap - 1

/-- Source `Footer(h)` (line 38): `h + h->s.size - 1`. -/
def Footer (st : HeapState) (h : Nat) : Nat := h + (st.rd h).size - 1

/-- Source `Header(f)` (line 44): `f - f->s.size + 1` (named `getHeader` because
`Header` is the record type's name). -/
def getHeader (st : HeapState) (f : Nat) : Nat := f - (st.rd f).size + 1

/-- Source `nextFree(h)` (line 28): `h->s.ptr`. -/
def nextFree (st : HeapState) (h : Nat) : Nat := (st.rd h).ptr

/-- Source `prevFree(h)` (line 33): `Footer(h)->s.ptr`. -/
def prevFree (st : HeapState) (h : Nat) : Nat := (st.rd (Footer st h)).ptr

/-- Source `equalFooter(h)` (line 49): `Footer(h)->s.size = h->s.size`. -/
def equalFooter (st : HeapState) (h : Nat) : HeapState :=
  st.wrSize (Footer st h) ((st.rd h).size)

/-- Source `upperHeader(h)` (line 54): `h + h->s.size`. -/
def upperHeader (st : HeapState) (h : Nat) : Nat := h + (st.rd h).size

/-- Source `upperFooter(h)` (line 59): `Footer(upperHeader(h))`. -/
def upperFooter (st : HeapState) (h : Nat) : Nat := Footer st (upperHeader st h)

/-- Source `lowerFooter(h)` (line 64): `h - 1`. -/
def lowerFooter (h : Nat) : Nat := h - 1

/-- Source `lowerHeader(h)` (line 69): `Header(lowerFooter(h))`. -/
def lowerHeader (st : HeapState) (h : Nat) : Nat := getHeader st (lowerFooter h)

/-- Source `mm_init()` (line 88): `mem_init()` then seed the self-pointing sentinel:
`baseH.s.ptr = freep = baseF.s.ptr = &baseH; baseH.s.size = baseF.s.size = 0;`. -/
def mm_init (st : HeapState) : HeapState :=
  let st1 := { st with heapUnits := 0 }
  let st2 := st1.wrPtr baseHaddr baseHaddr
  let st3 := st2.wrPtr baseFaddr baseHaddr
  let st4 := st3.wrSize baseHaddr 0
  let st5 := st4.wrSize baseFaddr 0
  { st5 with freep := baseHaddr }

/-- Source `mm_free(ap)` (lines 230-340).  The four coalescing branches as written in
the source; note that the statement at line 317 writes the member `s.siza`
(which the `Header` union does not declare — the file does not compile as
written); the evident intent `s.size` is modelled, and theorems note this.
The `assert` at line 239 aborts the process in C; the model returns the state
unchanged on a violated assertion and no theorem relies on that path. -/
def mm_free (st : HeapState) (ap : Nat) : HeapState :=
  if ap = 0 then st
  else
    let bp := mm_block ap
    if ¬ (0 < (st.rd bp).size ∧ mm_bytes (st.rd bp).size ≤ mm_bytes st.heapUnits) then st
    else if (st.rd (upperHeader st bp)).ptr ≠ 0 ∧ (st.rd (lowerHeader st bp)).ptr ≠ 0 then
      -- nextFree(lowerHeader(bp)) = nextFree(upperHeader(bp));
      let st1 := st.wrPtr (lowerHeader st bp) ((st.rd (upperHeader st bp)).ptr)
      -- prevFree(upperHeader(bp)) = prevFree(lowerHeader(bp));
      let st2 := st1.wrPtr (Footer st1 (upperHeader st1 bp))
        ((st1.rd (Footer st1 (lowerHeader st1 bp))).ptr)
      -- prevFree(nextFree(upperHeader(bp))) = lowerHeader(bp);
      let st3 := st2.wrPtr (Footer st2 ((st2.rd (upperHeader st2 bp)).ptr)) (lowerHeader st2 bp)
      -- bp->s.siza += upperHeader(bp)->s.size;   [sic: `siza`, line 317]
      let st4 := st3.wrSize bp ((st3.rd bp).size + (st3.rd (upperHeader st3 bp)).size)
      -- lowerHeader(bp)->s.size += bp->s.size;
      let st5 := st4.wrSize (lowerHeader st4 bp)
        ((st4.rd (lowerHeader st4 bp)).size + (st4.rd bp).size)
      -- equalFooter(lowerHeader(bp));
      equalFooter st5 (lowerHeader st5 bp)
    else if (st.rd (upperHeader st bp)).ptr ≠ 0 ∧ (st.rd (lowerHeader st bp)).ptr = 0 then
      -- nextFree(bp) = nextFree(upperHeader(bp));
      let st1 := st.wrPtr bp ((st.rd (upperHeader st bp)).ptr)
      -- prevFree(nextFree(upperHeader(bp))) = bp;
      let st2 := st1.wrPtr (Footer st1 ((st1.rd (upperHeader st1 bp)).ptr)) bp
      -- nextFree(prevFree(upperHeader(bp))) = bp;
      let st3 := st2.wrPtr ((st2.rd (Footer st2 (upperHeader st2 bp))).ptr) bp
      -- bp->s.size += upperHeader(bp)->s.size;
      let st4 := st3.wrSize bp ((st3.rd bp).size + (st3.rd (upperHeader st3 bp)).size)
      -- equalFooter(bp);
      equalFooter st4 bp
    else if (st.rd (upperHeader st bp)).ptr = 0 ∧ (st.rd (lowerHeader st bp)).ptr ≠ 0 then
      -- prevFree(bp) = prevFree(lowerHeader(bp));
      let st1 := st.wrPtr (Footer st bp) ((st.rd (Footer st (lowerHeader st bp))).ptr)
      -- lowerHeader(bp)->s.size += bp->s.size;
      let st2 := st1.wrSize (lowerHeader st1 bp)
        ((st1.rd (lowerHeader st1 bp)).size + (st1.rd bp).size)
      -- equalFooter(lowerHeader(bp));
      equalFooter st2 (lowerHeader st2 bp)
    else
      -- Header *h = nextFree(freep);
      let h := (st.rd st.freep).ptr
      -- nextFree(freep) = bp;
      let st1 := st.wrPtr st.freep bp
      -- nextFree(bp) = h;
      let st2 := st1.wrPtr bp h
      -- prevFree(h) = bp;
      let st3 := st2.wrPtr (Footer st2 h) bp
      -- prevFree(bp) = freep;
      st3.wrPtr (Footer st3 bp) st3.freep

/-- Source `morecore(nu)` (lines 394-420): take at least a page's worth of units,
`mem_sbrk`, format the grant as one block (`bp->s.size = nu; equalFooter(bp)`),
then `mm_free(bp + 1)`; returns `freep`. -/
def morecore (st : HeapState) (nu0 : Nat) : Option Nat × HeapState :=
  let nalloc := pageBytes / hdrSize
  let nu := if nu0 < nalloc then nalloc else nu0
  let nbytes := mm_bytes nu
  match st.mem_sbrk nbytes with
  | (none, st1) => (none, st1)
  | (some p, st1) =>
    let bp := p
    let st2 := st1.wrSize bp nu
    let st3 := equalFooter st2 bp
    let st4 := mm_free st3 (bp + 1)
    (some st4.freep, st4)

/-- The `for` loop of `mm_malloc` (lines 181-217), one fuel per iteration.
The fit branch mirrors lines 182-206 statement by statement (the source's
`prevFree(x) = e` / `nextFree(x) = e` assignments stand for
`Footer(x)->s.ptr = e` / `x->s.ptr = e`, as the source's own comments state). -/
def mallocLoop (st : HeapState) (nunits prevp p : Nat) : Nat → MRes
  | 0 => .fuelOut st
  | fuel + 1 =>
    if nunits ≤ (st.rd p).size then
      if (st.rd p).size = nunits then
        -- prevp->s.ptr = p->s.ptr;
        let st1 := st.wrPtr prevp ((st.rd p).ptr)
        -- prevFree(nextFree(p)) = prevFree(p);
        let st2 := st1.wrPtr (Footer st1 ((st1.rd p).ptr)) ((st1.rd (Footer st1 p)).ptr)
        -- nextFree(p) = NULL;  prevFree(p) = NULL;  freep = prevp;
        let st3 := st2.wrPtr p 0
        let st4 := st3.wrPtr (Footer st3 p) 0
        .ok (mm_payload p) { st4 with freep := prevp }
      else
        -- Header *f = prevFree(p);
        let f := (st.rd (Footer st p)).ptr
        -- p->s.size -= nunits;
        let st1 := st.wrSize p ((st.rd p).size - nunits)
        -- prevFree(p) = f;
        let st2 := st1.wrPtr (Footer st1 p) f
        -- equalFooter(p);
        let st3 := equalFooter st2 p
        -- p += p->s.size;
        let p2 := p + (st3.rd p).size
        -- p->s.size = nunits;
        let st4 := st3.wrSize p2 nunits
        -- equalFooter(p);
        let st5 := equalFooter st4 p2
        -- nextFree(p) = NULL;  prevFree(p) = NULL;  freep = prevp;
        let st6 := st5.wrPtr p2 0
        let st7 := st6.wrPtr (Footer st6 p2) 0
        .ok (mm_payload p2) { st7 with freep := prevp }
    else if p = st.freep then
      match morecore st nunits with
      | (none, st1) => .oom { st1 with errnoENOMEM := true }
      | (some p1, st1) => mallocLoop st1 nunits p1 ((st1.rd p1).ptr) fuel
    else
      mallocLoop st nunits p ((st.rd p).ptr) fuel

/-- Source `mm_malloc(nbytes)` (lines 169-221). -/
def mm_malloc (fuel : Nat) (st : HeapState) (nbytes : Nat) : MRes :=
  let st1 := if st.freep = 0 then mm_init st else st
  mallocLoop st1 (mm_units nbytes) st1.freep ((st1.rd st1.freep).ptr) fuel

/-- Source `mm_realloc(ap, newsize)` (lines 361-385).  The in-place test is guarded by
`newsize > 0`; the relocation path copies `min(mm_bytes(bp->s.size - 1),
newsize)` bytes, frees the old block and returns the new pointer. -/
def mm_realloc (fuel : Nat) (st : HeapState) (ap newsize : Nat) : MRes :=
  if ap = 0 then mm_malloc fuel st newsize
  else
    let bp := mm_block ap
    if 0 < newsize ∧ mm_units newsize ≤ (st.rd bp).size then .ok ap st
    else
      match mm_malloc fuel st newsize with
      | .ok newap st1 =>
        let oldsize := mm_bytes ((st1.rd bp).size - 1)
        let st2 := memcpyBytes st1 (hdrSize * newap) (hdrSize * ap) (min oldsize newsize)
        .ok newap (mm_free st2 ap)
      | .oom st1 => .oom st1
      | .fuelOut st1 => .fuelOut st1

/-- The `while (tmp->s.ptr > tmp)` summation loop of `mm_getfree`
(lines 477-480). -/
def getfreeLoop (st : HeapState) (tmp res : Nat) : Nat → Nat
  | 0 => res
  | fuel + 1 =>
    if tmp < (st.rd tmp).ptr then
      getfreeLoop st ((st.rd tmp).ptr) (res + (st.rd ((st.rd tmp).ptr)).size) fuel
    else res

/-- Source `mm_getfree()` (lines 467-484). -/
def mm_getfree (fuel : Nat) (st : HeapState) : Nat :=
  if st.freep = 0 then 0
  else mm_bytes (getfreeLoop st st.freep ((st.rd st.freep).size) fuel)

end heap2

namespace heap4

/-! ## `mm_kr_heap4.c` -/

/-- Source `mm_units(nbytes)` (line 89): identical to the heap2 definition. -/
def mm_units (nbytes : Nat) : Nat := (nbytes + hdrSize - 1) / hdrSize + 2

/-- Source `mm_bytes(nunits)` (line 101). -/
def mm_bytes (nunits : Nat) : Nat := nunits * hdrSize

/-- Source `mm_payload(bp)` (line 111). -/
def mm_payload (bp : Nat) : Nat := bp + 1

/-- Source `mm_block(ap)` (line 120). -/
def mm_block (ap : Nat) : Nat := ap - 1

/-- Source `Footer(h)` (line 27): `h + h->s.size + 1` — note `+ 1`, not the heap2
variant's `- 1`. -/
def Footer (st : HeapState) (h : Nat) : Nat := h + (st.rd h).size + 1

/-- Source `getHeader(f)` (line 33): `f - f->s.size - 1`. -/
def getHeader (st : HeapState) (f : Nat) : Nat := f - (st.rd f).size - 1

/-- Source `mm_init()` (line 52): same sentinel seeding as heap2. -/
def mm_init (st : HeapState) : HeapState :=
  let st1 := { st with heapUnits := 0 }
  let st2 := st1.wrPtr baseHaddr baseHaddr
  let st3 := st2.wrPtr baseFaddr baseHaddr
  let st4 := st3.wrSize baseHaddr 0
  let st5 := st4.wrSize baseFaddr 0
  { st5 with freep := baseHaddr }

/-- The insertion-point search loop of `mm_free` (lines 245-281): walks `p`
along header links and `rp` along footer links until one of the four break
conditions fires; returns the final `(p, rp)` pair.  C pointer comparisons
against `NULL` compare with address `0`. -/
def freeSearch (st : HeapState) (bp fp : Nat) (p rp : Nat) : Nat → Option (Nat × Nat)
  | 0 => none
  | fuel + 1 =>
    if (st.rd p).ptr ≤ p ∧ (p < bp ∨ bp < (st.rd p).ptr) then
      some (p, Footer st ((st.rd p).ptr))
    else if rp ≤ (st.rd rp).ptr ∧ (fp < rp ∨ (st.rd rp).ptr < fp) then
      some (getHeader st ((st.rd rp).ptr), rp)
    else if p < bp ∧ bp < (st.rd p).ptr then
      some (p, Footer st ((st.rd p).ptr))
    else if fp < rp ∧ (st.rd rp).ptr < fp then
      some (getHeader st ((st.rd rp).ptr), rp)
    else
      freeSearch st bp fp ((st.rd p).ptr) ((st.rd rp).ptr) fuel

/-- Source `mm_free(ap)` (lines 227-323): search for the insertion point, then the
upper-neighbor branch pair (lines 283-299) and the lower-neighbor branch pair
(lines 301-317), finally `freep = p`.  Returns `none` only when the model's
search fuel runs out (the C loop not terminating / crashing). -/
def mm_free (fuel : Nat) (st : HeapState) (ap : Nat) : Option HeapState :=
  if ap = 0 then some st
  else
    let bp := mm_block ap
    let fp := Footer st bp
    if ¬ (0 < (st.rd bp).size ∧ mm_bytes (st.rd bp).size ≤ mm_bytes st.heapUnits) then some st
    else
      match freeSearch st bp fp st.freep (Footer st st.freep) fuel with
      | none => none
      | some (p, rp) =>
        -- upper-neighbor pair; the C variable `fp` is reassigned to `rp` in
        -- the coalescing arm (`fp2` below is the value of `fp` after it)
        let stA :=
          if bp + (st.rd bp).size + 2 = (st.rd p).ptr then
            -- bp->s.size += p->s.ptr->s.size;
            let st1 := st.wrSize bp ((st.rd bp).size + (st.rd ((st.rd p).ptr)).size)
            -- bp->s.ptr = p->s.ptr->s.ptr;
            let st2 := st1.wrPtr bp ((st1.rd ((st1.rd p).ptr)).ptr)
            -- rp->s.size += fp->s.size;
            st2.wrSize rp ((st2.rd rp).size + (st2.rd fp).size)
          else
            -- bp->s.ptr = p->s.ptr;
            let st1 := st.wrPtr bp ((st.rd p).ptr)
            -- rp->s.ptr = fp;
            st1.wrPtr rp fp
        let fp2 := if bp + (st.rd bp).size + 2 = (st.rd p).ptr then rp else fp
        let final :=
          if p + (stA.rd p).size + 2 = bp then
            -- p->s.size += bp->s.size;
            let st1 := stA.wrSize p ((stA.rd p).size + (stA.rd bp).size)
            -- p->s.ptr = bp->s.ptr;
            let st2 := st1.wrPtr p ((st1.rd bp).ptr)
            -- fp->s.size += rp->s.ptr->s.size;
            let st3 := st2.wrSize fp2 ((st2.rd fp2).size + (st2.rd ((st2.rd rp).ptr)).size)
            -- fp->s.ptr = rp->s.ptr->s.ptr;
            st3.wrPtr fp2 ((st3.rd ((st3.rd rp).ptr)).ptr)
          else
            -- p->s.ptr = bp;
            let st1 := stA.wrPtr p bp
            -- fp->s.ptr = rp;
            st1.wrPtr fp2 rp
        some { final with freep := p }

/-- Source `morecore(nu)` (lines 377-405).  Note the source computes
`Header* fp = Footer(bp);` *before* `bp->s.size = nu;`, so the footer address
uses the stale size found in the fresh grant (the model's zeroed cell, hence
`fp = bp + 1`), not `nu`. -/
def morecore (fuel : Nat) (st : HeapState) (nu0 : Nat) : MRes :=
  let nalloc := pageBytes / hdrSize
  let nu := if nu0 < nalloc then nalloc else nu0
  let nbytes := mm_bytes nu
  match st.mem_sbrk nbytes with
  | (none, st1) => .oom st1
  | (some p, st1) =>
    let bp := p
    -- Header* fp = Footer(bp);   [before bp->s.size = nu]
    let fp := Footer st1 bp
    let st2 := st1.wrSize bp nu
    let st3 := st2.wrSize fp ((st2.rd bp).size)
    let st4 := st3.wrPtr bp 0
    let st5 := st4.wrPtr fp 0
    match mm_free fuel st5 (bp + 1) with
    | none => .fuelOut st5
    | some st6 => .ok st6.freep st6

/-- The `for` loop of `mm_malloc` (lines 160-214): `fp`, `prevFp`, `nextFp`
are snapshotted on entering the fit branch (lines 162-164); the split
subtracts `nunits + 2` and moves up by `p->s.size + 2`. -/
def mallocLoop (st : HeapState) (nunits prevp p : Nat) : Nat → MRes
  | 0 => .fuelOut st
  | fuel + 1 =>
    if nunits ≤ (st.rd p).size then
      let fp := Footer st p
      let prevFp := Footer st prevp
      let nextFp := Footer st ((st.rd p).ptr)
      if (st.rd p).size = nunits then
        -- prevp->s.ptr = p->s.ptr;
        let st1 := st.wrPtr prevp ((st.rd p).ptr)
        -- nextFp->s.ptr = prevFp;
        let st2 := st1.wrPtr nextFp prevFp
        -- p->s.ptr = NULL; fp->s.ptr = NULL; freep = prevp;
        let st3 := st2.wrPtr p 0
        let st4 := st3.wrPtr fp 0
        .ok (mm_payload p) { st4 with freep := prevp }
      else
        -- p->s.size -= (nunits + 2);
        let st1 := st.wrSize p ((st.rd p).size - (nunits + 2))
        -- newFp = Footer(p);
        let newFp := Footer st1 p
        -- newFp->s.size = p->s.size;
        let st2 := st1.wrSize newFp ((st1.rd p).size)
        -- newFp->s.ptr = prevFp;
        let st3 := st2.wrPtr newFp prevFp
        -- nextFp->s.ptr = newFp;
        let st4 := st3.wrPtr nextFp newFp
        -- p += p->s.size + 2;
        let p2 := p + (st4.rd p).size + 2
        -- p->s.size = nunits;
        let st5 := st4.wrSize p2 nunits
        -- fp->s.size = p->s.size;
        let st6 := st5.wrSize fp ((st5.rd p2).size)
        -- p->s.ptr = NULL; fp->s.ptr = NULL; freep = prevp;
        let st7 := st6.wrPtr p2 0
        let st8 := st7.wrPtr fp 0
        .ok (mm_payload p2) { st8 with freep := prevp }
    else if p = st.freep then
      match morecore fuel st nunits with
      | .oom st1 => .oom { st1 with errnoENOMEM := true }
      | .fuelOut st1 => .fuelOut st1
      | .ok p1 st1 => mallocLoop st1 nunits p1 ((st1.rd p1).ptr) fuel
    else
      mallocLoop st nunits p ((st.rd p).ptr) fuel

/-- Source `mm_malloc(nbytes)` (lines 141-218). -/
def mm_malloc (fuel : Nat) (st : HeapState) (nbytes : Nat) : MRes :=
  let st1 := if st.freep = 0 then mm_init st else st
  mallocLoop st1 (mm_units nbytes) st1.freep ((st1.rd st1.freep).ptr) fuel

/-- Source `mm_realloc(ap, newsize)` (lines 344-368): identical to heap2's except the
copy length is `min(mm_bytes(bp->s.size - 2), newsize)`. -/
def mm_realloc (fuel : Nat) (st : HeapState) (ap newsize : Nat) : MRes :=
  if ap = 0 then mm_malloc fuel st newsize
  else
    let bp := mm_block ap
    if 0 < newsize ∧ mm_units newsize ≤ (st.rd bp).size then .ok ap st
    else
      match mm_malloc fuel st newsize with
      | .ok newap st1 =>
        let oldsize := mm_bytes ((st1.rd bp).size - 2)
        let st2 := memcpyBytes st1 (hdrSize * newap) (hdrSize * ap) (min oldsize newsize)
        match mm_free fuel st2 ap with
        | none => .fuelOut st2
        | some st3 => .ok newap st3
      | .oom st1 => .oom st1
      | .fuelOut st1 => .fuelOut st1

/-- Summation loop of `mm_getfree` (lines 462-465): identical to heap2's. -/
def getfreeLoop (st : HeapState) (tmp res : Nat) : Nat → Nat
  | 0 => res
  | fuel + 1 =>
    if tmp < (st.rd tmp).ptr then
      getfreeLoop st ((st.rd tmp).ptr) (res + (st.rd ((st.rd tmp).ptr)).size) fuel
    else res

/-- Source `mm_getfree()` (lines 452-469). -/
def mm_getfree (fuel : Nat) (st : HeapState) : Nat :=
  if st.freep = 0 then 0
  else mm_bytes (getfreeLoop st st.freep ((st.rd st.freep).size) fuel)

end heap4

/-! ## Observations on states

These definitions are not translations of source functions; they are the
decidable predicates in which the specification's invariants are stated. -/

/-- Free-list members encountered by following `s.ptr` from `start` until the
walk returns to `start` or hits `NULL` (`start` itself, normally the sentinel
`baseH`, is not listed). -/
def freeListFrom (st : HeapState) (start : Nat) : Nat → Nat → List Nat
  | _, 0 => []
  | a, fuel + 1 =>
    if a = start ∨ a = 0 then []
    else a :: freeListFrom st start ((st.rd a).ptr) fuel

/-- The free-list blocks, walked from the sentinel `baseH`. -/
def freeBlocks (st : HeapState) (fuel : Nat) : List Nat :=
  freeListFrom st baseHaddr ((st.rd baseHaddr).ptr) fuel

/-- Sum of the `size` fields of the free-list blocks. -/
def freeUnitsTotal (st : HeapState) (fuel : Nat) : Nat :=
  ((freeBlocks st fuel).map (fun a => (st.rd a).size)).sum

/-- Two free-list blocks that are physically adjacent under the heap2 layout
(a block starting at `h` occupies units `[h, h + size)`). -/
def hasAdjacentFree2 (st : HeapState) (fuel : Nat) : Bool :=
  let l := freeBlocks st fuel
  l.any fun a => l.any fun b => a + (st.rd a).size = b

/-- Two free-list blocks that are physically adjacent under the heap4 layout
(a block starting at `h` occupies units `[h, h + size + 2)`). -/
def hasAdjacentFree4 (st : HeapState) (fuel : Nat) : Bool :=
  let l := freeBlocks st fuel
  l.any fun a => l.any fun b => a + (st.rd a).size + 2 = b

/-- Scan the arena by address under the heap2 layout: block headers found at
`heapLo`, each next header at `h + size`.  Stops at a zero size (corrupt). -/
def blockScan2 (st : HeapState) (h : Nat) : Nat → List Nat
  | 0 => []
  | fuel + 1 =>
    if h < heapLo + st.heapUnits ∧ 0 < (st.rd h).size then
      h :: blockScan2 st (h + (st.rd h).size) fuel
    else []

/-- The heap2 boundary-tag invariant over the whole arena: the scan by address
tiles the arena exactly, and every block's footer (at `h + size - 1`) carries
the same size as its header. -/
def footerInvariant2 (st : HeapState) (fuel : Nat) : Bool :=
  let l := blockScan2 st heapLo fuel
  (l.all fun h => (st.rd (h + (st.rd h).size - 1)).size = (st.rd h).size) &&
    (match l.getLast? with
     | none => st.heapUnits = 0
     | some h => h + (st.rd h).size = heapLo + st.heapUnits)

/-- Scan the arena by address under the heap4 layout: each next header at
`h + size + 2`. -/
def blockScan4 (st : HeapState) (h : Nat) : Nat → List Nat
  | 0 => []
  | fuel + 1 =>
    if h < heapLo + st.heapUnits ∧ 0 < (st.rd h).size then
      h :: blockScan4 st (h + (st.rd h).size + 2) fuel
    else []

/-- The claimed boundary-tag invariant (`Footer = Header + size - 1`, equal
sizes) checked over the heap4 arena scan. -/
def footerInvariantClaim4 (st : HeapState) (fuel : Nat) : Bool :=
  let l := blockScan4 st heapLo fuel
  l.all fun h => (st.rd (h + (st.rd h).size - 1)).size = (st.rd h).size

/-- Two distinct free-list members whose heap2 extents overlap (one block's
units claimed by two list members): the "exactly one free Block per maximal
free run" half of the coalescing postcondition fails when this holds. -/
def hasOverlapFree2 (st : HeapState) (fuel : Nat) : Bool :=
  let l := (freeBlocks st fuel).dedup
  l.any fun a => l.any fun b => a ≠ b && a ≤ b && b < a + (st.rd a).size

/-- The free list from the sentinel, as a strictly address-ascending chain:
`ascChain st a l` holds when following `s.ptr` from `a` visits exactly `l`
in increasing address order and then returns to the sentinel `baseH`. -/
def ascChain (st : HeapState) (a : Nat) : List Nat → Bool
  | [] => (st.rd a).ptr = baseHaddr
  | b :: l => (decide (a < b) && decide ((st.rd a).ptr = b)) && ascChain st b l

/-! ## Concrete execution traces used by the theorems -/

/-- Fresh process state with a 2048-unit (8-page) `MAX_HEAP`. -/
def fresh0 : HeapState := freshState 2048

/-- heap2: first `mm_malloc(16)` — grows the arena by one page (256 units),
splits the 256-unit block; payload pointer 264, block header at 263. -/
def alloc2a : MRes := heap2.mm_malloc 100 fresh0 16

/-- heap2: second `mm_malloc(16)` — payload 261, block header at 260. -/
def alloc2b : MRes := heap2.mm_malloc 100 alloc2a.st 16

/-- heap2: third `mm_malloc(16)` — payload 258, block header at 257. -/
def alloc2c : MRes := heap2.mm_malloc 100 alloc2b.st 16

/-- heap2: after the three allocations, release the first (payload 264).
Neither neighbor is free, so the block is linked in after `freep`. -/
def free2a : HeapState := heap2.mm_free alloc2c.st 264

/-- heap2: then release the third (payload 258); its lower neighbor is the
remaining free block, so it merges downward. -/
def free2c : HeapState := heap2.mm_free free2a 258

/-- heap2: two allocations, then release both in allocation order; the second
release runs the both-neighbors-free branch. -/
def corrupt2 : HeapState := heap2.mm_free (heap2.mm_free alloc2b.st 264) 261

/-- heap2: `mm_malloc(0)` on a fresh heap. -/
def zeroAlloc2 : MRes := heap2.mm_malloc 100 fresh0 0

/-- heap4: `mm_malloc(0)` on a fresh heap. -/
def zeroAlloc4 : MRes := heap4.mm_malloc 100 fresh0 0

/-- heap2: `mm_malloc(4080)` on a fresh heap: 257 units required, more than
the 256-unit page. -/
def bigAlloc2 : MRes := heap2.mm_malloc 100 fresh0 4080

/-- heap4: `mm_malloc(4080)` on a fresh heap. -/
def bigAlloc4 : MRes := heap4.mm_malloc 100 fresh0 4080

/-- heap2: `morecore(257)` on a freshly initialized heap, in isolation. -/
def grow2 : Option Nat × HeapState := heap2.morecore (heap2.mm_init fresh0) 257

/-- heap4: first `mm_malloc(16)` on a fresh heap — payload 264, header 263. -/
def alloc4a : MRes := heap4.mm_malloc 200 fresh0 16

/-- heap2: `mm_realloc(264, 0)` on the one-allocation state. -/
def resize2zero : MRes := heap2.mm_realloc 100 alloc2a.st 264 0

/-- heap4: `mm_realloc(264, 0)` on the one-allocation state. -/
def resize4zero : MRes := heap4.mm_realloc 200 alloc4a.st 264 0

/-- heap2 one-allocation state with two recognizable payload bytes stored
through the payload pointer 264 (byte offsets 3 and 15). -/
def poked2 : HeapState :=
  (alloc2a.st.wrByte (hdrSize * 264 + 3) 99).wrByte (hdrSize * 264 + 15) 55

/-- heap4 one-allocation state with the same two payload bytes stored. -/
def poked4 : HeapState :=
  (alloc4a.st.wrByte (hdrSize * 264 + 3) 99).wrByte (hdrSize * 264 + 15) 55

/-! ## Preservation lemmas

The allocator never writes payload bytes (only `memcpy` in `mm_realloc`
does), and only `mem_sbrk` appends to the request log.  These lemmas state
that fact for each layer of both variants. -/

theorem wrPtr_mem_bytes (st : HeapState) (a v b : Nat) :
    ((st.wrPtr a v).mem b).bytes = (st.mem b).bytes := by
  show (if b = a then { st.mem a with ptr := v } else st.mem b).bytes = (st.mem b).bytes
  by_cases h : b = a
  · subst h; rw [if_pos rfl]
  · rw [if_neg h]

theorem wrSize_mem_bytes (st : HeapState) (a v b : Nat) :
    ((st.wrSize a v).mem b).bytes = (st.mem b).bytes := by
  show (if b = a then { st.mem a with size := v } else st.mem b).bytes = (st.mem b).bytes
  by_cases h : b = a
  · subst h; rw [if_pos rfl]
  · rw [if_neg h]

theorem byteAt_wrPtr (st : HeapState) (a v b : Nat) :
    (st.wrPtr a v).byteAt b = st.byteAt b :=
  congrFun (wrPtr_mem_bytes st a v (b / hdrSize)) (b % hdrSize)

theorem byteAt_wrSize (st : HeapState) (a v b : Nat) :
    (st.wrSize a v).byteAt b = st.byteAt b :=
  congrFun (wrSize_mem_bytes st a v (b / hdrSize)) (b % hdrSize)

theorem byteAt_wrByte_self (st : HeapState) (b v : Nat) :
    (st.wrByte b v).byteAt b = v := by
  show (if b / hdrSize = b / hdrSize then _ else st.mem (b / hdrSize)).bytes (b % hdrSize) = v
  rw [if_pos rfl]
  show (if b % hdrSize = b % hdrSize then v else _) = v
  rw [if_pos rfl]

theorem eq_of_div_mod16 {c b : Nat} (h1 : c / 16 = b / 16) (h2 : c % 16 = b % 16) :
    c = b := by
  omega

theorem byteAt_wrByte_ne (st : HeapState) (b v c : Nat) (h : c ≠ b) :
    (st.wrByte b v).byteAt c = st.byteAt c := by
  show (if c / hdrSize = b / hdrSize then _ else st.mem (c / hdrSize)).bytes (c % hdrSize)
      = st.byteAt c
  by_cases h1 : c / hdrSize = b / hdrSize
  · rw [if_pos h1]
    show (if c % hdrSize = b % hdrSize then v else (st.mem (c / hdrSize)).bytes (c % hdrSize))
        = st.byteAt c
    have h2 : ¬ (c % hdrSize = b % hdrSize) := fun h2 => h (eq_of_div_mod16 h1 h2)
    rw [if_neg h2]
    rfl
  · rw [if_neg h1]
    rfl

theorem memcpyBytes_byteAt_outside : ∀ (n : Nat) (st : HeapState) (dst src c : Nat),
    c < dst ∨ dst + n ≤ c →
    (memcpyBytes st dst src n).byteAt c = st.byteAt c := by
  intro n
  induction n with
  | zero => intro st dst src c _; rfl
  | succ m ih =>
    intro st dst src c h
    show (memcpyBytes (st.wrByte dst (st.byteAt src)) (dst + 1) (src + 1) m).byteAt c = _
    rw [ih _ _ _ _ (by omega)]
    exact byteAt_wrByte_ne _ _ _ _ (by omega)

theorem memcpyBytes_byteAt_get : ∀ (n : Nat) (st : HeapState) (dst src i : Nat),
    i < n → (dst + n ≤ src ∨ src + n ≤ dst) →
    (memcpyBytes st dst src n).byteAt (dst + i) = st.byteAt (src + i) := by
  intro n
  induction n with
  | zero => intro st dst src i h _; omega
  | succ m ih =>
    intro st dst src i hi hd
    show (memcpyBytes (st.wrByte dst (st.byteAt src)) (dst + 1) (src + 1) m).byteAt (dst + i) = _
    cases i with
    | zero =>
      rw [memcpyBytes_byteAt_outside m _ (dst + 1) (src + 1) (dst + 0) (by omega)]
      rw [show dst + 0 = dst from rfl, byteAt_wrByte_self]
      rfl
    | succ j =>
      have h1 : dst + (j + 1) = (dst + 1) + j := by omega
      rw [h1, ih _ _ _ _ (by omega) (by omega)]
      rw [byteAt_wrByte_ne _ _ _ _ (by omega)]
      have h2 : src + 1 + j = src + (j + 1) := by omega
      rw [h2]

theorem equalFooter2_mem_bytes (st : HeapState) (h b : Nat) :
    ((heap2.equalFooter st h).mem b).bytes = (st.mem b).bytes :=
  wrSize_mem_bytes _ _ _ _

theorem free2_mem_bytes (st : HeapState) (ap b : Nat) :
    ((heap2.mm_free st ap).mem b).bytes = (st.mem b).bytes := by
  simp only [heap2.mm_free]
  split
  · rfl
  split
  · rfl
  split
  · simp only [heap2.equalFooter, wrPtr_mem_bytes, wrSize_mem_bytes]
  split
  · simp only [heap2.equalFooter, wrPtr_mem_bytes, wrSize_mem_bytes]
  split
  · simp only [heap2.equalFooter, wrPtr_mem_bytes, wrSize_mem_bytes]
  · simp only [wrPtr_mem_bytes]

theorem free2_sbrkLog (st : HeapState) (ap : Nat) :
    (heap2.mm_free st ap).sbrkLog = st.sbrkLog := by
  simp only [heap2.mm_free]
  split
  · rfl
  split
  · rfl
  split
  · rfl
  split
  · rfl
  split
  · rfl
  · rfl

theorem free2_heapUnits (st : HeapState) (ap : Nat) :
    (heap2.mm_free st ap).heapUnits = st.heapUnits := by
  simp only [heap2.mm_free]
  split
  · rfl
  split
  · rfl
  split
  · rfl
  split
  · rfl
  split
  · rfl
  · rfl

theorem wrPtr_sbrkLog (st : HeapState) (a v : Nat) :
    (st.wrPtr a v).sbrkLog = st.sbrkLog := rfl

theorem wrSize_sbrkLog (st : HeapState) (a v : Nat) :
    (st.wrSize a v).sbrkLog = st.sbrkLog := rfl

theorem mem_sbrk_snd_mem (st : HeapState) (n : Nat) :
    (st.mem_sbrk n).2.mem = st.mem := by
  simp only [HeapState.mem_sbrk]
  split
  · rfl
  · rfl

theorem mem_sbrk_snd_sbrkLog (st : HeapState) (n : Nat) :
    (st.mem_sbrk n).2.sbrkLog = st.sbrkLog ++ [n] := by
  simp only [HeapState.mem_sbrk]
  split
  · rfl
  · rfl

theorem mm_bytes2_div (x : Nat) : heap2.mm_bytes x / hdrSize = x := by
  simp only [heap2.mm_bytes, hdrSize]
  omega

theorem morecore2_mem_bytes (st : HeapState) (nu b : Nat) :
    (((heap2.morecore st nu).2).mem b).bytes = (st.mem b).bytes := by
  simp only [heap2.morecore]
  split
  · next st1 heq =>
    have h1 := mem_sbrk_snd_mem st (heap2.mm_bytes (if nu < pageBytes / hdrSize
      then pageBytes / hdrSize else nu))
    rw [heq] at h1
    rw [h1]
  · next p st1 heq =>
    have h1 := mem_sbrk_snd_mem st (heap2.mm_bytes (if nu < pageBytes / hdrSize
      then pageBytes / hdrSize else nu))
    rw [heq] at h1
    have h2 : st1.mem = st.mem := h1
    simp only [free2_mem_bytes, heap2.equalFooter, wrSize_mem_bytes, h2]

theorem morecore2_sbrkLog (st : HeapState) (nu : Nat) :
    ((heap2.morecore st nu).2).sbrkLog =
      st.sbrkLog ++ [heap2.mm_bytes (max nu (pageBytes / hdrSize))] := by
  have hmax : (if nu < pageBytes / hdrSize then pageBytes / hdrSize else nu)
      = max nu (pageBytes / hdrSize) := by
    split <;> omega
  simp only [heap2.morecore]
  split
  · next st1 heq =>
    have h1 := mem_sbrk_snd_sbrkLog st (heap2.mm_bytes (if nu < pageBytes / hdrSize
      then pageBytes / hdrSize else nu))
    rw [heq] at h1
    rw [h1, hmax]
  · next p st1 heq =>
    have h1 := mem_sbrk_snd_sbrkLog st (heap2.mm_bytes (if nu < pageBytes / hdrSize
      then pageBytes / hdrSize else nu))
    rw [heq] at h1
    simp only [free2_sbrkLog, heap2.equalFooter, wrSize_sbrkLog]
    have h2 : st1.sbrkLog = st.sbrkLog ++ [heap2.mm_bytes (if nu < pageBytes / hdrSize
      then pageBytes / hdrSize else nu)] := h1
    rw [h2, hmax]

theorem morecore2_fail (st : HeapState) (nu : Nat)
    (h : st.memLimit < st.heapUnits + pageBytes / hdrSize) :
    heap2.morecore st nu = (none,
      { st with sbrkLog := st.sbrkLog ++ [heap2.mm_bytes
        (if nu < pageBytes / hdrSize then pageBytes / hdrSize else nu)] }) := by
  have hdiv := mm_bytes2_div (if nu < pageBytes / hdrSize then pageBytes / hdrSize else nu)
  have hpb : pageBytes / hdrSize = 256 := rfl
  have hcond : ¬ (st.heapUnits + heap2.mm_bytes
      (if nu < pageBytes / hdrSize then pageBytes / hdrSize else nu) / hdrSize ≤ st.memLimit) := by
    rw [hpb] at h
    rw [hdiv, hpb]
    split <;> omega
  simp only [heap2.morecore, HeapState.mem_sbrk]
  rw [if_neg hcond]

theorem init2_mem_bytes (st : HeapState) (b : Nat) :
    (((heap2.mm_init st).mem b)).bytes = (st.mem b).bytes := by
  simp only [heap2.mm_init, wrPtr_mem_bytes, wrSize_mem_bytes]

theorem mallocLoop2_mem_bytes : ∀ (fuel : Nat) (st : HeapState) (nunits prevp p b : Nat),
    (((heap2.mallocLoop st nunits prevp p fuel).st).mem b).bytes = (st.mem b).bytes := by
  intro fuel
  induction fuel with
  | zero => intro st nunits prevp p b; rfl
  | succ f ih =>
    intro st nunits prevp p b
    simp only [heap2.mallocLoop]
    split
    · split
      · simp only [MRes.st, heap2.equalFooter, wrPtr_mem_bytes, wrSize_mem_bytes]
      · simp only [MRes.st, heap2.equalFooter, wrPtr_mem_bytes, wrSize_mem_bytes]
    split
    · split
      · next st1 heq =>
        have h1 := morecore2_mem_bytes st nunits b
        rw [heq] at h1
        exact h1
      · next p1 st1 heq =>
        have h1 := morecore2_mem_bytes st nunits b
        rw [heq] at h1
        rw [ih, h1]
    · exact ih st nunits p ((st.rd p).ptr) b

theorem malloc2_mem_bytes (fuel : Nat) (st : HeapState) (n b : Nat) :
    (((heap2.mm_malloc fuel st n).st).mem b).bytes = (st.mem b).bytes := by
  simp only [heap2.mm_malloc]
  split
  · rw [mallocLoop2_mem_bytes, init2_mem_bytes]
  · rw [mallocLoop2_mem_bytes]

theorem malloc2_byteAt (fuel : Nat) (st : HeapState) (n b : Nat) :
    ((heap2.mm_malloc fuel st n).st).byteAt b = st.byteAt b :=
  congrFun (malloc2_mem_bytes fuel st n (b / hdrSize)) (b % hdrSize)

theorem free2_byteAt (st : HeapState) (ap b : Nat) :
    (heap2.mm_free st ap).byteAt b = st.byteAt b :=
  congrFun (free2_mem_bytes st ap (b / hdrSize)) (b % hdrSize)

theorem mallocLoop2_oom : ∀ (fuel : Nat) (st : HeapState) (nunits prevp p : Nat) (res : MRes),
    st.memLimit < st.heapUnits + pageBytes / hdrSize →
    heap2.mallocLoop st nunits prevp p fuel = res →
    res.isOom = true →
    res.st.mem = st.mem ∧ res.st.freep = st.freep
      ∧ res.st.heapUnits = st.heapUnits ∧ res.st.errnoENOMEM = true := by
  intro fuel
  induction fuel with
  | zero =>
    intro st nunits prevp p res h heq hoom
    simp only [heap2.mallocLoop] at heq
    rw [← heq] at hoom
    exact absurd hoom (by simp [MRes.isOom])
  | succ f ih =>
    intro st nunits prevp p res h heq hoom
    simp only [heap2.mallocLoop] at heq
    split at heq
    · split at heq <;> (rw [← heq] at hoom; exact absurd hoom (by simp [MRes.isOom]))
    split at heq
    · rw [morecore2_fail st nunits h] at heq
      subst heq
      exact ⟨rfl, rfl, rfl, rfl⟩
    · exact ih st nunits p ((st.rd p).ptr) res h heq hoom

theorem free4_mem_bytes : ∀ (fuel : Nat) (st : HeapState) (ap : Nat) (st2 : HeapState) (b : Nat),
    heap4.mm_free fuel st ap = some st2 → (st2.mem b).bytes = (st.mem b).bytes := by
  intro fuel st ap st2 b h
  simp only [heap4.mm_free] at h
  split at h
  · cases h; rfl
  split at h
  · cases h; rfl
  split at h
  · cases h
  · next p rp heq =>
    cases h
    by_cases hc1 : heap4.mm_block ap + (st.rd (heap4.mm_block ap)).size + 2 = (st.rd p).ptr
    · simp only [if_pos hc1]
      split <;> simp only [wrPtr_mem_bytes, wrSize_mem_bytes]
    · simp only [if_neg hc1]
      split <;> simp only [wrPtr_mem_bytes, wrSize_mem_bytes]

theorem free4_sbrkLog : ∀ (fuel : Nat) (st : HeapState) (ap : Nat) (st2 : HeapState),
    heap4.mm_free fuel st ap = some st2 → st2.sbrkLog = st.sbrkLog := by
  intro fuel st ap st2 h
  simp only [heap4.mm_free] at h
  split at h
  · cases h; rfl
  split at h
  · cases h; rfl
  split at h
  · cases h
  · next p rp heq =>
    cases h
    by_cases hc1 : heap4.mm_block ap + (st.rd (heap4.mm_block ap)).size + 2 = (st.rd p).ptr
    · simp only [if_pos hc1]
      split <;> rfl
    · simp only [if_neg hc1]
      split <;> rfl

theorem free4_byteAt (fuel : Nat) (st : HeapState) (ap : Nat) (st2 : HeapState) (b : Nat)
    (h : heap4.mm_free fuel st ap = some st2) : st2.byteAt b = st.byteAt b :=
  congrFun (free4_mem_bytes fuel st ap st2 (b / hdrSize) h) (b % hdrSize)

theorem mm_bytes4_div (x : Nat) : heap4.mm_bytes x / hdrSize = x := by
  simp only [heap4.mm_bytes, hdrSize]
  omega

theorem morecore4_mem_bytes : ∀ (fuel : Nat) (st : HeapState) (nu b : Nat),
    (((heap4.morecore fuel st nu).st).mem b).bytes = (st.mem b).bytes := by
  intro fuel st nu b
  simp only [heap4.morecore]
  split
  · next st1 heq =>
    have h1 := mem_sbrk_snd_mem st (heap4.mm_bytes (if nu < pageBytes / hdrSize
      then pageBytes / hdrSize else nu))
    rw [heq] at h1
    have h2 : st1.mem = st.mem := h1
    simp only [MRes.st, h2]
  · next p st1 heq =>
    have h1 := mem_sbrk_snd_mem st (heap4.mm_bytes (if nu < pageBytes / hdrSize
      then pageBytes / hdrSize else nu))
    rw [heq] at h1
    have h2 : st1.mem = st.mem := h1
    split
    · simp only [MRes.st, wrPtr_mem_bytes, wrSize_mem_bytes, h2]
    · next st6 hfree =>
      have hb := free4_mem_bytes fuel _ _ _ b hfree
      simp only [MRes.st]
      rw [hb]
      simp only [wrPtr_mem_bytes, wrSize_mem_bytes, h2]

theorem morecore4_sbrkLog : ∀ (fuel : Nat) (st : HeapState) (nu : Nat),
    ((heap4.morecore fuel st nu).st).sbrkLog =
      st.sbrkLog ++ [heap4.mm_bytes (max nu (pageBytes / hdrSize))] := by
  intro fuel st nu
  have hmax : (if nu < pageBytes / hdrSize then pageBytes / hdrSize else nu)
      = max nu (pageBytes / hdrSize) := by
    split <;> omega
  simp only [heap4.morecore]
  split
  · next st1 heq =>
    have h1 := mem_sbrk_snd_sbrkLog st (heap4.mm_bytes (if nu < pageBytes / hdrSize
      then pageBytes / hdrSize else nu))
    rw [heq] at h1
    have h2 : st1.sbrkLog = st.sbrkLog ++ [heap4.mm_bytes (if nu < pageBytes / hdrSize
      then pageBytes / hdrSize else nu)] := h1
    simp only [MRes.st, h2, hmax]
  · next p st1 heq =>
    have h1 := mem_sbrk_snd_sbrkLog st (heap4.mm_bytes (if nu < pageBytes / hdrSize
      then pageBytes / hdrSize else nu))
    rw [heq] at h1
    have h2 : st1.sbrkLog = st.sbrkLog ++ [heap4.mm_bytes (if nu < pageBytes / hdrSize
      then pageBytes / hdrSize else nu)] := h1
    split
    · simp only [MRes.st, wrPtr_sbrkLog, wrSize_sbrkLog]
      rw [h2, hmax]
    · next st6 hfree =>
      have hl := free4_sbrkLog fuel _ _ _ hfree
      simp only [MRes.st]
      rw [hl]
      simp only [wrPtr_sbrkLog, wrSize_sbrkLog]
      rw [h2, hmax]

theorem morecore4_fail (fuel : Nat) (st : HeapState) (nu : Nat)
    (h : st.memLimit < st.heapUnits + pageBytes / hdrSize) :
    heap4.morecore fuel st nu = .oom
      { st with sbrkLog := st.sbrkLog ++ [heap4.mm_bytes
        (if nu < pageBytes / hdrSize then pageBytes / hdrSize else nu)] } := by
  have hdiv := mm_bytes4_div (if nu < pageBytes / hdrSize then pageBytes / hdrSize else nu)
  have hpb : pageBytes / hdrSize = 256 := rfl
  have hcond : ¬ (st.heapUnits + heap4.mm_bytes
      (if nu < pageBytes / hdrSize then pageBytes / hdrSize else nu) / hdrSize ≤ st.memLimit) := by
    rw [hpb] at h
    rw [hdiv, hpb]
    split <;> omega
  simp only [heap4.morecore, HeapState.mem_sbrk]
  rw [if_neg hcond]

theorem init4_mem_bytes (st : HeapState) (b : Nat) :
    (((heap4.mm_init st).mem b)).bytes = (st.mem b).bytes := by
  simp only [heap4.mm_init, wrPtr_mem_bytes, wrSize_mem_bytes]

theorem mallocLoop4_mem_bytes : ∀ (fuel : Nat) (st : HeapState) (nunits prevp p b : Nat),
    (((heap4.mallocLoop st nunits prevp p fuel).st).mem b).bytes = (st.mem b).bytes := by
  intro fuel
  induction fuel with
  | zero => intro st nunits prevp p b; rfl
  | succ f ih =>
    intro st nunits prevp p b
    simp only [heap4.mallocLoop]
    split
    · split
      · simp only [MRes.st, wrPtr_mem_bytes, wrSize_mem_bytes]
      · simp only [MRes.st, wrPtr_mem_bytes, wrSize_mem_bytes]
    split
    · split
      · next st1 heq =>
        have h1 := morecore4_mem_bytes f st nunits b
        rw [heq] at h1
        exact h1
      · next st1 heq =>
        have h1 := morecore4_mem_bytes f st nunits b
        rw [heq] at h1
        exact h1
      · next p1 st1 heq =>
        have h1 := morecore4_mem_bytes f st nunits b
        rw [heq] at h1
        have h2 : (st1.mem b).bytes = (st.mem b).bytes := h1
        rw [ih, h2]
    · exact ih st nunits p ((st.rd p).ptr) b

theorem malloc4_mem_bytes (fuel : Nat) (st : HeapState) (n b : Nat) :
    (((heap4.mm_malloc fuel st n).st).mem b).bytes = (st.mem b).bytes := by
  simp only [heap4.mm_malloc]
  split
  · rw [mallocLoop4_mem_bytes, init4_mem_bytes]
  · rw [mallocLoop4_mem_bytes]

theorem malloc4_byteAt (fuel : Nat) (st : HeapState) (n b : Nat) :
    ((heap4.mm_malloc fuel st n).st).byteAt b = st.byteAt b :=
  congrFun (malloc4_mem_bytes fuel st n (b / hdrSize)) (b % hdrSize)

theorem mallocLoop4_oom : ∀ (fuel : Nat) (st : HeapState) (nunits prevp p : Nat) (res : MRes),
    st.memLimit < st.heapUnits + pageBytes / hdrSize →
    heap4.mallocLoop st nunits prevp p fuel = res →
    res.isOom = true →
    res.st.mem = st.mem ∧ res.st.freep = st.freep
      ∧ res.st.heapUnits = st.heapUnits ∧ res.st.errnoENOMEM = true := by
  intro fuel
  induction fuel with
  | zero =>
    intro st nunits prevp p res h heq hoom
    simp only [heap4.mallocLoop] at heq
    rw [← heq] at hoom
    exact absurd hoom (by simp [MRes.isOom])
  | succ f ih =>
    intro st nunits prevp p res h heq hoom
    simp only [heap4.mallocLoop] at heq
    split at heq
    · split at heq <;> (rw [← heq] at hoom; exact absurd hoom (by simp [MRes.isOom]))
    split at heq
    · rw [morecore4_fail f st nunits h] at heq
      subst heq
      exact ⟨rfl, rfl, rfl, rfl⟩
    · exact ih st nunits p ((st.rd p).ptr) res h heq hoom

theorem getfreeLoop2_chain : ∀ (l : List Nat) (st : HeapState) (a res fuel : Nat),
    baseHaddr ≤ a → ascChain st a l = true → l.length ≤ fuel →
    heap2.getfreeLoop st a res fuel = res + ((l.map fun b => (st.rd b).size).sum) := by
  intro l
  induction l with
  | nil =>
    intro st a res fuel ha hc _
    have hptr : (st.rd a).ptr = baseHaddr := by
      simpa [ascChain, decide_eq_true_eq] using hc
    have hlt : ¬ (a < (st.rd a).ptr) := by
      rw [hptr]
      simp only [baseHaddr] at ha ⊢
      omega
    cases fuel with
    | zero => simp [heap2.getfreeLoop]
    | succ f => simp [heap2.getfreeLoop, hlt]
  | cons b l ih =>
    intro st a res fuel ha hc hlen
    obtain ⟨hab, hptr, hcl⟩ : a < b ∧ (st.rd a).ptr = b ∧ ascChain st b l = true := by
      simpa [ascChain, Bool.and_eq_true, decide_eq_true_eq, and_assoc] using hc
    cases fuel with
    | zero => simp at hlen
    | succ f =>
      simp only [heap2.getfreeLoop, hptr]
      rw [if_pos hab]
      rw [ih st b (res + (st.rd b).size) f
        (by simp only [baseHaddr] at ha ⊢; omega) hcl (by simpa using hlen)]
      simp only [List.map_cons, List.sum_cons]
      omega

theorem freeListFrom_chain : ∀ (l : List Nat) (st : HeapState) (a fuel : Nat),
    baseHaddr ≤ a → ascChain st a l = true → l.length < fuel →
    freeListFrom st baseHaddr ((st.rd a).ptr) fuel = l := by
  intro l
  induction l with
  | nil =>
    intro st a fuel ha hc hlen
    have hptr : (st.rd a).ptr = baseHaddr := by
      simpa [ascChain, decide_eq_true_eq] using hc
    cases fuel with
    | zero => omega
    | succ f =>
      rw [hptr]
      simp [freeListFrom]
  | cons b l ih =>
    intro st a fuel ha hc hlen
    obtain ⟨hab, hptr, hcl⟩ : a < b ∧ (st.rd a).ptr = b ∧ ascChain st b l = true := by
      simpa [ascChain, Bool.and_eq_true, decide_eq_true_eq, and_assoc] using hc
    cases fuel with
    | zero => omega
    | succ f =>
      rw [hptr]
      have hb : ¬ (b = baseHaddr ∨ b = 0) := by
        simp only [baseHaddr] at ha ⊢
        omega
      simp only [freeListFrom, if_neg hb]
      rw [ih st b f (by simp only [baseHaddr] at ha ⊢; omega) hcl (by simpa using hlen)]

/-- C1: the coalescing postcondition — after every release, every maximal run
of physically adjacent free units is represented by exactly one free Block —
fails on the code.  On heap2 (modelling line 317's `bp->s.siza`, a member the
`Header` union does not declare, as the evident `s.size`), releasing two
allocations in allocation order makes the second release take the
both-neighbors-free branch, which treats the upper neighbor's *list*
successor as its *address* successor: afterwards the free list contains the
member 263 strictly inside the extent of the member 10 (size 256), so the
single maximal free run `[10, 266)` is represented by two free Blocks and the
list is corrupted.  Before that release the invariant held (no adjacent and
no overlapping free-list members). -/
theorem C1_release_free_list_overlap :
    hasOverlapFree2 corrupt2 10 = true
    ∧ 263 ∈ freeBlocks corrupt2 10 ∧ 10 ∈ freeBlocks corrupt2 10
    ∧ (corrupt2.rd 10).size = 256 ∧ 10 < 263 ∧ 263 < 10 + (corrupt2.rd 10).size
    ∧ hasOverlapFree2 (heap2.mm_free alloc2b.st 264) 10 = false
    ∧ hasAdjacentFree2 (heap2.mm_free alloc2b.st 264) 10 = false := by
  decide

/-- C2: the boundary-tag invariant — Footer size equals Header size and the
Footer record sits at `header + size - 1` — holds on heap2 traces (allocate,
release, coalescing release), but fails on heap4: its `Footer` function
(line 27) is `h + size + 1`, so after the very first `mm_malloc(16)` the
allocated block's header at 263 carries size 3 while the record at
`263 + 3 - 1 = 265` carries size 0; the footer heap4 itself wrote sits at
267. -/
theorem C2_footer_boundary_tags :
    footerInvariant2 alloc2c.st 50 = true
    ∧ footerInvariant2 free2a 50 = true
    ∧ footerInvariant2 free2c 50 = true
    ∧ (alloc4a.st.rd 263).size = 3
    ∧ (alloc4a.st.rd (263 + 3 - 1)).size = 0
    ∧ heap4.Footer alloc4a.st 263 = 267
    ∧ footerInvariantClaim4 alloc4a.st 50 = false := by
  decide

/-- C3: the split behavior.  heap2 behaves exactly as claimed on the first
`mm_malloc(16)` against the fresh 256-unit block: the lower `256 - 3 = 253`
units remain free with header and footer size 253 and the free-list links of
the shrunken block rewritten (both point at the sentinel), the upper 3 units
become the allocated block with size `required = 3`, and `freep` is advanced
to the list predecessor of the block split from (the sentinel).  heap4
violates the claim: its split (line 181) subtracts `nunits + 2`, leaving the
lower block with 251 units, not `size - required = 253`. -/
theorem C3_split_lower_size :
    heap2.mm_units 16 = 3
    ∧ (alloc2a.st.rd 10).size = 253 ∧ 256 - heap2.mm_units 16 = 253
    ∧ (alloc2a.st.rd (10 + 253 - 1)).size = 253
    ∧ (alloc2a.st.rd 10).ptr = baseHaddr ∧ (alloc2a.st.rd (10 + 253 - 1)).ptr = baseHaddr
    ∧ (alloc2a.st.rd 263).size = heap2.mm_units 16
    ∧ alloc2a.ptr = 264
    ∧ alloc2a.st.freep = baseHaddr
    ∧ heap4.mm_units 16 = 3
    ∧ (alloc4a.st.rd 10).size = 251
    ∧ 251 ≠ 256 - heap4.mm_units 16 := by
  decide

/-- C4: `mm_units nbytes` is `ceil(nbytes / unitSize) + 2` in both variants —
`mm_units n - 2` is the least `k` with `n ≤ k * unitSize` — and
`allocate(0)` requires exactly 2 units and, with memory available, returns a
non-null payload pointer to a block of size 2 in both variants. -/
theorem C4_required_units :
    (∀ n : Nat, n ≤ hdrSize * (heap2.mm_units n - 2)
      ∧ (∀ k : Nat, n ≤ hdrSize * k → heap2.mm_units n - 2 ≤ k)
      ∧ heap4.mm_units n = heap2.mm_units n)
    ∧ heap2.mm_units 0 = 2
    ∧ zeroAlloc2.ptr ≠ 0 ∧ (zeroAlloc2.st.rd (zeroAlloc2.ptr - 1)).size = 2
    ∧ zeroAlloc4.ptr ≠ 0 ∧ (zeroAlloc4.st.rd (zeroAlloc4.ptr - 1)).size = 2 := by
  refine ⟨fun n => ⟨?_, fun k hk => ?_, rfl⟩, by decide, by decide, by decide,
    by decide, by decide⟩
  · unfold heap2.mm_units hdrSize
    omega
  · unfold heap2.mm_units hdrSize at hk ⊢
    omega

/-- C4 witness: the general part of `C4_required_units` applied at
`nbytes = 40`, `k = 3`. -/
theorem C4_required_units_witness :
    40 ≤ hdrSize * (heap2.mm_units 40 - 2) ∧ heap2.mm_units 40 - 2 ≤ 3 :=
  ⟨(C4_required_units.1 40).1, (C4_required_units.1 40).2.1 3 (by decide)⟩

/-- C5 counterexample: `allocate(4080)` on a fresh heap needs 257 units, more
than one 256-unit page; both variants issue exactly one `mem_sbrk` request of
`257 * 16 = 4112` bytes — `max(required, pageSize/unitSize)` units, *not*
rounded up to a full-page multiple (4112 is not a multiple of 4096) — and the
allocation succeeds. -/
theorem C5_growth_not_page_rounded :
    heap2.mm_units 4080 = 257
    ∧ bigAlloc2.st.sbrkLog = [4112]
    ∧ bigAlloc2.isOk = true
    ∧ 4112 % pageBytes ≠ 0
    ∧ bigAlloc4.st.sbrkLog = [4112]
    ∧ bigAlloc4.isOk = true := by
  decide

/-- C5 as amended: on a search miss, `morecore` issues exactly one growth
request of exactly `max(required, pageSize/unitSize)` units (a full page only
when the requirement is below one page; no rounding up to a page multiple),
formats the granted region as one free Block (header and footer both 257 on
the isolated 257-unit `morecore`), inserts it through the release logic, and
the retried search succeeds — the successful `allocate(4080)` shows exactly
one logged request. -/
theorem C5_growth_request_amended :
    (∀ (st : HeapState) (nu : Nat),
      ((heap2.morecore st nu).2).sbrkLog
        = st.sbrkLog ++ [heap2.mm_bytes (max nu (pageBytes / hdrSize))])
    ∧ (∀ (fuel : Nat) (st : HeapState) (nu : Nat),
      ((heap4.morecore fuel st nu).st).sbrkLog
        = st.sbrkLog ++ [heap4.mm_bytes (max nu (pageBytes / hdrSize))])
    ∧ grow2.2.sbrkLog = [4112]
    ∧ grow2.1 = some baseHaddr
    ∧ freeBlocks grow2.2 10 = [10]
    ∧ (grow2.2.rd 10).size = 257
    ∧ (grow2.2.rd (10 + 257 - 1)).size = 257
    ∧ bigAlloc2.isOk = true
    ∧ bigAlloc2.st.sbrkLog = [4112] :=
  ⟨morecore2_sbrkLog, morecore4_sbrkLog, by decide, by decide, by decide, by decide,
    by decide, by decide, by decide⟩

/-- C6: on an initialized heap whose arena can no longer grow (the memlib
limit is within one page of the current extent, so every `mem_sbrk` request —
always at least one page — fails), an `mm_malloc` call that reports
out-of-memory leaves every memory cell, the free-list head and the arena
extent exactly as they were, returns `NULL`, and sets `errno = ENOMEM`; in
both variants. -/
theorem C6_oom_failure_no_mutation :
    (∀ (fuel : Nat) (st : HeapState) (n : Nat),
      st.freep ≠ 0 → st.memLimit < st.heapUnits + pageBytes / hdrSize →
      (heap2.mm_malloc fuel st n).isOom = true →
      (heap2.mm_malloc fuel st n).st.mem = st.mem
        ∧ (heap2.mm_malloc fuel st n).st.freep = st.freep
        ∧ (heap2.mm_malloc fuel st n).st.heapUnits = st.heapUnits
        ∧ (heap2.mm_malloc fuel st n).st.errnoENOMEM = true)
    ∧ (∀ (fuel : Nat) (st : HeapState) (n : Nat),
      st.freep ≠ 0 → st.memLimit < st.heapUnits + pageBytes / hdrSize →
      (heap4.mm_malloc fuel st n).isOom = true →
      (heap4.mm_malloc fuel st n).st.mem = st.mem
        ∧ (heap4.mm_malloc fuel st n).st.freep = st.freep
        ∧ (heap4.mm_malloc fuel st n).st.heapUnits = st.heapUnits
        ∧ (heap4.mm_malloc fuel st n).st.errnoENOMEM = true) := by
  constructor
  · intro fuel st n hfp hl hoom
    have hm : heap2.mm_malloc fuel st n
        = heap2.mallocLoop st (heap2.mm_units n) st.freep ((st.rd st.freep).ptr) fuel := by
      simp [heap2.mm_malloc, hfp]
    rw [hm] at hoom ⊢
    exact mallocLoop2_oom fuel st (heap2.mm_units n) st.freep ((st.rd st.freep).ptr) _ hl rfl hoom
  · intro fuel st n hfp hl hoom
    have hm : heap4.mm_malloc fuel st n
        = heap4.mallocLoop st (heap4.mm_units n) st.freep ((st.rd st.freep).ptr) fuel := by
      simp [heap4.mm_malloc, hfp]
    rw [hm] at hoom ⊢
    exact mallocLoop4_oom fuel st (heap4.mm_units n) st.freep ((st.rd st.freep).ptr) _ hl rfl hoom

/-- C6 witness: a freshly initialized heap with `MAX_HEAP = 0`; `malloc(16)`
reports out-of-memory and sets the `ENOMEM` flag, in both variants. -/
theorem C6_oom_failure_no_mutation_witness :
    (heap2.mm_malloc 10 (heap2.mm_init (freshState 0)) 16).st.errnoENOMEM = true
    ∧ (heap4.mm_malloc 10 (heap4.mm_init (freshState 0)) 16).st.errnoENOMEM = true :=
  ⟨(C6_oom_failure_no_mutation.1 10 (heap2.mm_init (freshState 0)) 16
      (by decide) (by decide) (by decide)).2.2.2,
   (C6_oom_failure_no_mutation.2 10 (heap4.mm_init (freshState 0)) 16
      (by decide) (by decide) (by decide)).2.2.2⟩

/-- C7 counterexample: `resize(ptr, 0)`.  The in-place test is guarded by
`newsize > 0` (line 368 / 351), so although a live 3-unit block accommodates
the `mm_units 0 = 2` units needed for `newsize = 0`, both variants allocate a
fresh minimum-size block and return a different pointer (262 resp. 260, not
the original 264). -/
theorem C7_resize_zero_relocates :
    heap2.mm_units 0 ≤ (alloc2a.st.rd (heap2.mm_block 264)).size
    ∧ resize2zero.isOk = true ∧ resize2zero.ptr = 262 ∧ resize2zero.ptr ≠ 264
    ∧ heap4.mm_units 0 ≤ (alloc4a.st.rd (heap4.mm_block 264)).size
    ∧ resize4zero.isOk = true ∧ resize4zero.ptr = 260 ∧ resize4zero.ptr ≠ 264 := by
  decide

/-- C7 as amended: for `newsize > 0`, whenever the live block's declared size
accommodates `mm_units newsize`, `mm_realloc` returns the same pointer with
the state untouched (no new block, no data movement); in both variants. -/
theorem C7_inplace_resize :
    (∀ (fuel : Nat) (st : HeapState) (ap newsize : Nat),
      ap ≠ 0 → 0 < newsize → heap2.mm_units newsize ≤ (st.rd (heap2.mm_block ap)).size →
      heap2.mm_realloc fuel st ap newsize = .ok ap st)
    ∧ (∀ (fuel : Nat) (st : HeapState) (ap newsize : Nat),
      ap ≠ 0 → 0 < newsize → heap4.mm_units newsize ≤ (st.rd (heap4.mm_block ap)).size →
      heap4.mm_realloc fuel st ap newsize = .ok ap st) := by
  constructor
  · intro fuel st ap newsize h0 hpos hfit
    simp only [heap2.mm_realloc, if_neg h0]
    rw [if_pos ⟨hpos, hfit⟩]
  · intro fuel st ap newsize h0 hpos hfit
    simp only [heap4.mm_realloc, if_neg h0]
    rw [if_pos ⟨hpos, hfit⟩]

/-- C7 witness: `resize(264, 16)` on the one-allocation states returns the
same pointer 264 and the unchanged state, in both variants. -/
theorem C7_inplace_resize_witness :
    heap2.mm_realloc 100 alloc2a.st 264 16 = .ok 264 alloc2a.st
    ∧ heap4.mm_realloc 200 alloc4a.st 264 16 = .ok 264 alloc4a.st :=
  ⟨C7_inplace_resize.1 100 alloc2a.st 264 16 (by decide) (by decide) (by decide),
   C7_inplace_resize.2 200 alloc4a.st 264 16 (by decide) (by decide) (by decide)⟩

/-- C8: relocating `mm_realloc`.  When the in-place test fails, the inner
`mm_malloc` succeeds without touching the old block's header (as in every
real run — stated as hypotheses, discharged concretely in the witness), and
the new block's byte range is disjoint from the old one's, the call returns
the fresh pointer and the new payload's first `min(oldPayloadBytes, newsize)`
bytes equal the old payload's, byte for byte.  For heap2 `oldPayloadBytes` is
`mm_bytes (size - 2)` (the code copies up to `mm_bytes (size - 1)` — one
footer unit more — which can only extend, never corrupt, the guaranteed
range); for heap4 the copy length is exactly `min (mm_bytes (size - 2))
newsize`.  The heap4 part also assumes the call succeeded (its release step
carries search fuel in the model). -/
theorem C8_relocation_preserves_payload :
    (∀ (fuel : Nat) (st : HeapState) (ap newsize : Nat),
      ap ≠ 0 →
      ¬ (0 < newsize ∧ heap2.mm_units newsize ≤ (st.rd (heap2.mm_block ap)).size) →
      (heap2.mm_malloc fuel st newsize).isOk = true →
      ((heap2.mm_malloc fuel st newsize).st.rd (heap2.mm_block ap)).size
        = (st.rd (heap2.mm_block ap)).size →
      (hdrSize * (heap2.mm_malloc fuel st newsize).ptr
          + min (heap2.mm_bytes ((st.rd (heap2.mm_block ap)).size - 1)) newsize
          ≤ hdrSize * ap
        ∨ hdrSize * ap
          + min (heap2.mm_bytes ((st.rd (heap2.mm_block ap)).size - 1)) newsize
          ≤ hdrSize * (heap2.mm_malloc fuel st newsize).ptr) →
      (heap2.mm_realloc fuel st ap newsize).ptr = (heap2.mm_malloc fuel st newsize).ptr
      ∧ ∀ i : Nat, i < min (heap2.mm_bytes ((st.rd (heap2.mm_block ap)).size - 2)) newsize →
        (heap2.mm_realloc fuel st ap newsize).st.byteAt
            (hdrSize * (heap2.mm_malloc fuel st newsize).ptr + i)
          = st.byteAt (hdrSize * ap + i))
    ∧ (∀ (fuel : Nat) (st : HeapState) (ap newsize : Nat),
      ap ≠ 0 →
      ¬ (0 < newsize ∧ heap4.mm_units newsize ≤ (st.rd (heap4.mm_block ap)).size) →
      (heap4.mm_malloc fuel st newsize).isOk = true →
      ((heap4.mm_malloc fuel st newsize).st.rd (heap4.mm_block ap)).size
        = (st.rd (heap4.mm_block ap)).size →
      (hdrSize * (heap4.mm_malloc fuel st newsize).ptr
          + min (heap4.mm_bytes ((st.rd (heap4.mm_block ap)).size - 2)) newsize
          ≤ hdrSize * ap
        ∨ hdrSize * ap
          + min (heap4.mm_bytes ((st.rd (heap4.mm_block ap)).size - 2)) newsize
          ≤ hdrSize * (heap4.mm_malloc fuel st newsize).ptr) →
      (heap4.mm_realloc fuel st ap newsize).isOk = true →
      (heap4.mm_realloc fuel st ap newsize).ptr = (heap4.mm_malloc fuel st newsize).ptr
      ∧ ∀ i : Nat, i < min (heap4.mm_bytes ((st.rd (heap4.mm_block ap)).size - 2)) newsize →
        (heap4.mm_realloc fuel st ap newsize).st.byteAt
            (hdrSize * (heap4.mm_malloc fuel st newsize).ptr + i)
          = st.byteAt (hdrSize * ap + i)) := by
  constructor
  · intro fuel st ap newsize h0 hnofit hok hsz hdisj
    cases hm : heap2.mm_malloc fuel st newsize with
    | oom s => rw [hm] at hok; exact absurd hok (by simp [MRes.isOk])
    | fuelOut s => rw [hm] at hok; exact absurd hok (by simp [MRes.isOk])
    | ok q st1 =>
      have hsz2 : (st1.rd (heap2.mm_block ap)).size = (st.rd (heap2.mm_block ap)).size := by
        rw [hm] at hsz
        exact hsz
      have hr : heap2.mm_realloc fuel st ap newsize
          = .ok q (heap2.mm_free (memcpyBytes st1 (hdrSize * q) (hdrSize * ap)
              (min (heap2.mm_bytes ((st1.rd (heap2.mm_block ap)).size - 1)) newsize)) ap) := by
        simp only [heap2.mm_realloc, if_neg h0, if_neg hnofit, hm]
      rw [hm] at hdisj
      simp only [MRes.ptr] at hdisj
      constructor
      · rw [hr]
        simp only [MRes.ptr]
      · intro i hi
        rw [hr]
        simp only [MRes.ptr, MRes.st]
        rw [free2_byteAt]
        have hle : heap2.mm_bytes ((st.rd (heap2.mm_block ap)).size - 2)
            ≤ heap2.mm_bytes ((st.rd (heap2.mm_block ap)).size - 1) := by
          simp only [heap2.mm_bytes, hdrSize]
          omega
        rw [hsz2]
        rw [memcpyBytes_byteAt_get _ st1 (hdrSize * q) (hdrSize * ap) i (by omega) hdisj]
        have hb := malloc2_byteAt fuel st newsize (hdrSize * ap + i)
        rw [hm] at hb
        exact hb
  · intro fuel st ap newsize h0 hnofit hok hsz hdisj hrok
    cases hm : heap4.mm_malloc fuel st newsize with
    | oom s => rw [hm] at hok; exact absurd hok (by simp [MRes.isOk])
    | fuelOut s => rw [hm] at hok; exact absurd hok (by simp [MRes.isOk])
    | ok q st1 =>
      have hsz2 : (st1.rd (heap4.mm_block ap)).size = (st.rd (heap4.mm_block ap)).size := by
        rw [hm] at hsz
        exact hsz
      have hr : heap4.mm_realloc fuel st ap newsize
          = (match heap4.mm_free fuel (memcpyBytes st1 (hdrSize * q) (hdrSize * ap)
                (min (heap4.mm_bytes ((st1.rd (heap4.mm_block ap)).size - 2)) newsize)) ap with
             | none => MRes.fuelOut (memcpyBytes st1 (hdrSize * q) (hdrSize * ap)
                (min (heap4.mm_bytes ((st1.rd (heap4.mm_block ap)).size - 2)) newsize))
             | some st3 => MRes.ok q st3) := by
        simp only [heap4.mm_realloc, if_neg h0, if_neg hnofit, hm]
      cases hf : heap4.mm_free fuel (memcpyBytes st1 (hdrSize * q) (hdrSize * ap)
          (min (heap4.mm_bytes ((st1.rd (heap4.mm_block ap)).size - 2)) newsize)) ap with
      | none =>
        rw [hr, hf] at hrok
        exact absurd hrok (by simp [MRes.isOk])
      | some st3 =>
        rw [hf] at hr
        rw [hm] at hdisj
        simp only [MRes.ptr] at hdisj
        constructor
        · rw [hr]
          simp only [MRes.ptr]
        · intro i hi
          rw [hr]
          simp only [MRes.ptr, MRes.st]
          have h3 := free4_byteAt fuel _ ap st3 (hdrSize * q + i) hf
          rw [h3, hsz2]
          rw [memcpyBytes_byteAt_get _ st1 (hdrSize * q) (hdrSize * ap) i hi hdisj]
          have hb := malloc4_byteAt fuel st newsize (hdrSize * ap + i)
          rw [hm] at hb
          exact hb

/-- C8 witness: `resize(264, 17)` on the poked one-allocation states: payload
byte 3 (value 99) survives the relocation to the fresh block, in both
variants. -/
theorem C8_relocation_preserves_payload_witness :
    (heap2.mm_realloc 100 poked2 264 17).st.byteAt
        (hdrSize * (heap2.mm_malloc 100 poked2 17).ptr + 3)
      = poked2.byteAt (hdrSize * 264 + 3)
    ∧ (heap4.mm_realloc 200 poked4 264 17).st.byteAt
        (hdrSize * (heap4.mm_malloc 200 poked4 17).ptr + 3)
      = poked4.byteAt (hdrSize * 264 + 3) :=
  ⟨(C8_relocation_preserves_payload.1 100 poked2 264 17 (by decide) (by decide) (by decide)
      (by decide) (by decide)).2 3 (by decide),
   (C8_relocation_preserves_payload.2 200 poked4 264 17 (by decide) (by decide) (by decide)
      (by decide) (by decide) (by decide)).2 3 (by decide)⟩

/-- C9 counterexample: after three `mm_malloc(16)` and one release, the free
list holds the blocks 263 (3 units) and 10 (247 units), 250 units = 4000
bytes in total; but `mm_getfree` walks from `freep` only while addresses
strictly increase (line 477), stops after block 263 (whose link points down
to 10), and reports 48 bytes — not the sum over every free-list block. -/
theorem C9_getfree_misses_blocks :
    freeBlocks free2a 10 = [263, 10]
    ∧ (free2a.rd 263).size = 3 ∧ (free2a.rd 10).size = 247
    ∧ freeUnitsTotal free2a 10 = 250
    ∧ heap2.mm_getfree 50 free2a = 48
    ∧ heap2.mm_bytes (freeUnitsTotal free2a 10) = 4000
    ∧ heap2.mm_getfree 50 free2a ≠ heap2.mm_bytes (freeUnitsTotal free2a 10) := by
  decide

/-- C9 as amended: `mm_getfree` sums block sizes along the strictly
address-ascending link chain from `freep` and converts units to bytes; when
`freep` is the sentinel and the whole circular list is one ascending chain
`l`, that is exactly the sum over every free-list block. -/
theorem C9_getfree_ascending_chain :
    ∀ (st : HeapState) (l : List Nat) (fuel : Nat),
      st.freep = baseHaddr → (st.rd baseHaddr).size = 0 →
      ascChain st baseHaddr l = true → l.length < fuel →
      heap2.mm_getfree fuel st = heap2.mm_bytes ((l.map fun b => (st.rd b).size).sum)
      ∧ freeBlocks st fuel = l := by
  intro st l fuel hfp hsz hc hlen
  constructor
  · simp only [heap2.mm_getfree, hfp]
    rw [if_neg (by decide : ¬ (baseHaddr = 0))]
    rw [getfreeLoop2_chain l st baseHaddr ((st.rd baseHaddr).size) fuel (Nat.le_refl _) hc
      (by omega)]
    rw [hsz, Nat.zero_add]
  · simp only [freeBlocks]
    exact freeListFrom_chain l st baseHaddr fuel (Nat.le_refl _) hc hlen

/-- C9 witness: the amended theorem applied to the one-allocation state,
whose free list is the single ascending chain `[10]`. -/
theorem C9_getfree_ascending_chain_witness :
    heap2.mm_getfree 50 alloc2a.st
      = heap2.mm_bytes (([10].map fun b => (alloc2a.st.rd b).size).sum)
    ∧ freeBlocks alloc2a.st 50 = [10] :=
  C9_getfree_ascending_chain alloc2a.st [10] 50 (by decide) (by decide) (by decide) (by decide)

/-- C10: `mm_malloc` on a never-initialized allocator (`freep == NULL`) first
performs the full initialization — seeding the sentinel to the self-pointing
empty list — and then behaves exactly as `mm_malloc` on the initialized
state; the first allocation on a fresh heap succeeds rather than failing or
chasing the null head.  Both variants. -/
theorem C10_lazy_initialization :
    (∀ (fuel : Nat) (st : HeapState) (n : Nat), st.freep = 0 →
      heap2.mm_malloc fuel st n = heap2.mm_malloc fuel (heap2.mm_init st) n)
    ∧ (∀ (fuel : Nat) (st : HeapState) (n : Nat), st.freep = 0 →
      heap4.mm_malloc fuel st n = heap4.mm_malloc fuel (heap4.mm_init st) n)
    ∧ (∀ st : HeapState, (heap2.mm_init st).freep = baseHaddr
        ∧ ((heap2.mm_init st).rd baseHaddr).ptr = baseHaddr
        ∧ ((heap2.mm_init st).rd baseHaddr).size = 0
        ∧ ((heap2.mm_init st).rd baseFaddr).ptr = baseHaddr)
    ∧ alloc2a.ptr ≠ 0 ∧ alloc4a.ptr ≠ 0 := by
  refine ⟨?_, ?_, fun st => ⟨rfl, rfl, rfl, rfl⟩, by decide, by decide⟩
  · intro fuel st n h
    have hfp : (heap2.mm_init st).freep = baseHaddr := rfl
    simp [heap2.mm_malloc, h, hfp, baseHaddr]
  · intro fuel st n h
    have hfp : (heap4.mm_init st).freep = baseHaddr := rfl
    simp [heap4.mm_malloc, h, hfp, baseHaddr]

/-- C10 witness: the lazy-initialization equation applied to the fresh
state. -/
theorem C10_lazy_initialization_witness :
    heap2.mm_malloc 100 fresh0 16 = heap2.mm_malloc 100 (heap2.mm_init fresh0) 16
    ∧ heap4.mm_malloc 200 fresh0 16 = heap4.mm_malloc 200 (heap4.mm_init fresh0) 16 :=
  ⟨C10_lazy_initialization.1 100 fresh0 16 rfl, C10_lazy_initialization.2.1 200 fresh0 16 rfl⟩
